import Mathlib

/-!
Verification of the tensor core of mini-web-gpt (src/lib/tensor.js).

The JavaScript source is shallowly embedded: the nested literal data the
`Tensor` constructor accepts becomes the inductive `NestedData`; the
`Float32Array` buffer becomes a `List Int` (every numeric value appearing in
the claims is a small integer, exactly representable as a 32-bit float, so
numeric values are modelled by integers and 32-bit rounding is the identity on
all inputs considered); functions that `throw` return `Except TensorError`.
Object references (`_parents`) are modelled as indices into a heap
(`List Tensor`); mutation becomes explicit state passing.
-/

namespace MiniWebGPT

/-- Errors of the spec's taxonomy. The JavaScript source throws generic
`Error` objects; the spec maps the constructor's validity failure and the
inconsistent-shape failure to ShapeError, the unsupported-input failure to
TypeError, and the zero-step failure of `arange` to ValueError. `RangeError`
is the JavaScript builtin thrown by `Float32Array.prototype.set` when the
source is longer than the target (reachable in `clone`). -/
inductive TensorError where
  | ShapeError
  | TypeError
  | ValueError
  | RangeError
deriving Repr, DecidableEq

/-- Nested literal data accepted by the `Tensor` constructor: a number or an
array of nested data (src/lib/tensor.js, constructor parameter `data`). -/
inductive NestedData where
  | num (v : Int)
  | arr (xs : List NestedData)
deriving Repr

/-- Whether a nested datum is an array (JavaScript `Array.isArray`). -/
def NestedData.isArr : NestedData → Bool
  | .num _ => false
  | .arr _ => true

mutual
/-- Embeds `checkShape` from `Tensor.isValidTensor`
(src/lib/tensor.js:56-75). The closure-mutable `shape` array is threaded as
an explicit argument; returning `none` models `return false`, returning
`some s` models `return true` with `shape` left in state `s`. The source
initialises `shape` to `null` and replaces it by `[]` on the first array
visited; since `checkShape` is only reached with an array input, starting
from `[]` is the same. -/
def checkShape : NestedData → Nat → List Nat → Option (List Nat)
  | .num _, _, s => some s
  | .arr xs, depth, s =>
    if s.length ≤ depth then
      checkShapeList xs depth (s ++ [xs.length])
    else if s[depth]? = some xs.length then
      checkShapeList xs depth s
    else
      none

/-- The child loop of `checkShape` (src/lib/tensor.js:69-73): children are
visited left to right at depth one greater, aborting on the first failure. -/
def checkShapeList : List NestedData → Nat → List Nat → Option (List Nat)
  | [], _, s => some s
  | x :: rest, depth, s =>
    match checkShape x (depth + 1) s with
    | none => none
    | some s1 => checkShapeList rest depth s1
end

/-- Embeds `Tensor.isValidTensor` (src/lib/tensor.js:47-78) restricted to the
inputs `NestedData` models: numbers are immediately valid, arrays are checked
by `checkShape`. (The `Float32Array` branch, also immediately valid, and the
not-an-array early `false` for other types fall outside `NestedData` and are
handled by the separate constructor entry points below.) -/
def isValidTensor : NestedData → Bool
  | .num _ => true
  | .arr xs => (checkShape (.arr xs) 0 []).isSome

mutual
/-- Embeds the body of `flattenAndGetShape` (src/lib/tensor.js:85-110). The
source is an explicit-stack loop that pops a node, records or checks its
length at its depth, and pushes its children in reverse so they are popped
left to right; that is exactly a left-to-right preorder traversal, embedded
here as the equivalent structural recursion threading the `(flat, shape)`
state. `none` models the thrown "Inconsistent shape in nested array." error. -/
def fgsGo : NestedData → Nat → List Int × List Nat → Option (List Int × List Nat)
  | .num v, _, (flat, s) => some (flat ++ [v], s)
  | .arr xs, depth, (flat, s) =>
    if s.length ≤ depth then
      fgsGoList xs depth (flat, s ++ [xs.length])
    else if s[depth]? = some xs.length then
      fgsGoList xs depth (flat, s)
    else
      none

/-- Left-to-right traversal of the children of an array node in
`flattenAndGetShape` (src/lib/tensor.js:104-106). -/
def fgsGoList : List NestedData → Nat → List Int × List Nat → Option (List Int × List Nat)
  | [], _, st => some st
  | x :: rest, depth, st =>
    match fgsGo x (depth + 1) st with
    | none => none
    | some st1 => fgsGoList rest depth st1
end

/-- `flattenAndGetShape` (src/lib/tensor.js:85-110): flatten a nested array
into row-major order and infer its shape, failing on an inconsistent shape. -/
def flattenAndGetShape (arr : NestedData) : Option (List Int × List Nat) :=
  fgsGo arr 0 ([], [])

/-- Product of a shape: `shape.reduce((a, b) => a * b, 1)`
(src/lib/tensor.js:14). -/
def shapeProd (s : List Nat) : Nat :=
  s.foldl (· * ·) 1

/-- The `Tensor` object (src/lib/tensor.js:7-36). `data` is the
`Float32Array` buffer, `shape` the dimension list. The autograd fields set at
src/lib/tensor.js:31-35 are `requiresGrad`, `grad` (a tensor whose own
autograd fields are never used, so it is modelled by its data and shape),
`parents` (`_parents`, object references modelled as indices into an ambient
heap `List Tensor`), and `backwardFn` (`_backward`, `null` or a function from
the tensor's gradient buffer to one contribution per parent). -/
structure Tensor where
  data : List Int
  shape : List Nat
  requiresGrad : Bool
  grad : Option (List Int × List Nat)
  parents : List Nat
  backwardFn : Option (List Int → List (List Int))

/-- The constructor path `new Tensor(data)` for nested-array or number data
(src/lib/tensor.js:7-36, `isShape = false`). The validity check at line 8
runs before any allocation, so a failure yields an error and no tensor. A
number is wrapped as `Float32Array([data])` with shape `[1]`. -/
def Tensor.make (d : NestedData) : Except TensorError Tensor :=
  if isValidTensor d then
    match d with
    | .arr xs =>
      match flattenAndGetShape (.arr xs) with
      | some (flat, shape) => .ok ⟨flat, shape, false, none, [], none⟩
      | none => .error .ShapeError
    | .num v => .ok ⟨[v], [1], false, none, [], none⟩
  else
    .error .ShapeError

/-- The constructor path `new Tensor(buf)` for a `Float32Array` buffer
(src/lib/tensor.js:21-23): the buffer is adopted and the shape is
`[buf.length]`. (`isValidTensor` accepts every `Float32Array`.) -/
def Tensor.fromBuffer (buf : List Int) : Tensor :=
  ⟨buf, [buf.length], false, none, [], none⟩

/-- The constructor path `new Tensor(shape, true)` (src/lib/tensor.js:12-16):
allocate a zero-filled buffer of the product size. (`isValidTensor` accepts
every flat numeric array, so the validity check at line 8 always passes for a
shape list.) A number argument would be wrapped as `[n]`; the claims only use
list shapes. -/
def Tensor.ofShape (shape : List Nat) : Tensor :=
  ⟨List.replicate (shapeProd shape) 0, shape, false, none, [], none⟩

/-- `Float32Array.prototype.fill(v)` on a tensor's buffer: every slot becomes
`v`, the length is unchanged. -/
def Tensor.fillData (t : Tensor) (v : Int) : Tensor :=
  { t with data := List.replicate t.data.length v }

/-- `Tensor.zeros` (src/lib/tensor.js:117-119). -/
def Tensor.zeros (shape : List Nat) : Tensor :=
  Tensor.ofShape shape

/-- `Tensor.ones` (src/lib/tensor.js:126-130): a zeros tensor whose buffer is
then filled with 1. -/
def Tensor.ones (shape : List Nat) : Tensor :=
  (Tensor.ofShape shape).fillData 1

/-- `Tensor.full` (src/lib/tensor.js:138-142): a zeros tensor whose buffer is
then filled with `value`. -/
def Tensor.full (shape : List Nat) (value : Int) : Tensor :=
  (Tensor.ofShape shape).fillData value

/-- `Tensor.arange` (src/lib/tensor.js:151-169). `endv` embeds the `end`
parameter (`end` is reserved in Lean); `none` models the one-argument call
`arange(n)`, which shifts `start` to `end` and starts from 0. A zero step
throws. `size = Math.max(0, Math.ceil((end - start) / step))`; the loop
accumulates `val = start + i * step` and the resulting buffer is handed to
`new Tensor(data)`, taking the `Float32Array` branch. Parameters are modelled
as integers (the claims use only integers); the ceiling division is computed
exactly over the rationals, as `Math.ceil` does on these inputs. -/
def Tensor.arange (start : Int) (endv : Option Int) (step : Int) :
    Except TensorError Tensor :=
  let p : Int × Int :=
    match endv with
    | none => (0, start)
    | some e => (start, e)
  if step = 0 then
    .error .ValueError
  else
    let size : Nat := (max 0 ⌈((p.2 - p.1 : ℚ) / (step : ℚ))⌉).toNat
    .ok (Tensor.fromBuffer ((List.range size).map fun i : Nat => p.1 + (i : Int) * step))

/-- `unflatten` (src/lib/tensor.js:233-245), faithfully including its use of
the FULL buffer length at every recursion level: `subSize` is
`data.length / size` where `data` is always the whole buffer, not the current
chunk. `data.subarray(offset, offset + n)` clamps out-of-range indices, as
`drop`/`take` do. The division is exact (`size` divides `data.length`) on
every call arising from a tensor whose buffer length is the shape product;
when `size = 0` the JavaScript quotient is not a number but the loop body
never runs, matching the `List.range 0` here. An empty shape never arises
from `toString` (rank-1 is handled before recursion) and is given the empty
array. -/
def unflatten (data : List Int) : List Nat → Nat → NestedData
  | [], _ => .arr []
  | [n], offset => .arr (((data.drop offset).take n).map .num)
  | n :: m :: rest, offset =>
    let subSize := data.length / n
    .arr ((List.range n).map fun i =>
      unflatten data (m :: rest) (offset + i * subSize))

/-- A string of `n` spaces: `' '.repeat(n)`. -/
def spaces (n : Nat) : String :=
  String.mk (List.replicate n ' ')

/-- The element rendering used by `nested.join(', ')` in
`formatTensorString` (src/lib/tensor.js:260): each element of a 1-D row is a
number and prints via its `toString`. Integer-valued floats print with no
decimal point in JavaScript, matching `Int` printing here. The array case is
unreachable under the `is1D` guard. -/
def leafString : NestedData → String
  | .num v => toString v
  | .arr _ => ""

mutual
/-- `formatTensorString` (src/lib/tensor.js:253-267): a number prints itself;
a 1-D row (no array elements, `is1D = !nested.some(Array.isArray)`) prints as
a flat bracketed comma-joined list; a deeper nesting prints one element per
line, indented two further spaces, wrapped in brackets. -/
def formatTensorString : NestedData → Nat → String
  | .num v, _ => toString v
  | .arr xs, indent =>
    if !(xs.any NestedData.isArr) then
      "[" ++ String.intercalate ", " (xs.map leafString) ++ "]"
    else
      "[\n" ++ String.intercalate ",\n" (formatLines xs (indent + 2)) ++
        "\n" ++ spaces indent ++ "]"

/-- The `nested.map(sub => innerIndentStr + this.formatTensorString(sub,
innerIndent))` loop of `formatTensorString` (src/lib/tensor.js:264). -/
def formatLines : List NestedData → Nat → List String
  | [], _ => []
  | x :: rest, ind => (spaces ind ++ formatTensorString x ind) :: formatLines rest ind
end

/-- `toString` (src/lib/tensor.js:273-282): rank-1 tensors format the flat
buffer directly; higher ranks format the unflattened nesting. The result is
`tensor(<formatted>, dtype=float32)`. The embedding is a pure function of the
tensor, so it cannot mutate it. -/
def Tensor.toString (t : Tensor) : String :=
  let formatted :=
    if t.shape.length = 1 then
      formatTensorString (.arr (t.data.map .num)) 0
    else
      formatTensorString (unflatten t.data t.shape 0) 0
  "tensor(" ++ formatted ++ ", dtype=float32)"

/-- `clone` (src/lib/tensor.js:288-292): allocate `new Tensor(this.shape,
true)` (a fresh zero buffer of the shape-product size, with all autograd
fields reset by the constructor), then `newTensor.data.set(this.data)`.
`TypedArray.set` throws a RangeError when the source is longer than the
target; otherwise it overwrites the first `src.length` slots and leaves the
rest (zeros here) unchanged. -/
def Tensor.clone (t : Tensor) : Except TensorError Tensor :=
  let newTensor := Tensor.ofShape t.shape
  if t.data.length ≤ newTensor.data.length then
    .ok { newTensor with
          data := t.data ++ newTensor.data.drop t.data.length }
  else
    .error .RangeError

/-- `zeroGrad` (src/lib/tensor.js:297-301): if `grad` is present (a tensor
object, hence truthy), fill its buffer with 0 in place; otherwise do
nothing. -/
def Tensor.zeroGrad (t : Tensor) : Tensor :=
  match t.grad with
  | none => t
  | some (gdata, gshape) =>
    { t with grad := some (List.replicate gdata.length 0, gshape) }

/-- Modelled from the spec: gradient accumulation (spec section 4.4, missing
from src/lib/tensor.js, which declares the autograd fields but implements no
`backward`). A contribution is added elementwise into the parent's `grad`,
which is allocated as zeros matching the parent's shape on the first
contribution and never overwritten. -/
def accumulateGrad (gd : Option (List Int × List Nat)) (contrib : List Int)
    (shape : List Nat) : Option (List Int × List Nat) :=
  match gd with
  | none =>
    some (List.zipWith (· + ·) (List.replicate (shapeProd shape) 0) contrib, shape)
  | some (d, s) => some (List.zipWith (· + ·) d contrib, s)

/-- Modelled from the spec: depth-first post-order visitation over the
`parents` edges recording finish order (spec section 4.4, missing from
src/lib/tensor.js). Nodes are heap indices; `acc` is the list of finished
nodes, which doubles as the visited set. The fuel argument bounds the
recursion depth; `backward` passes more fuel than a DAG over the heap can
consume, so on acyclic graphs the traversal is exactly the spec's DFS. -/
def topoVisit (h : List Tensor) : Nat → Nat → List Nat → List Nat
  | 0, _, acc => acc
  | fuel + 1, i, acc =>
    if i ∈ acc then acc
    else
      match h[i]? with
      | none => acc
      | some t =>
        (t.parents.foldl (fun a p => topoVisit h fuel p a) acc) ++ [i]

/-- Modelled from the spec: processing one node of the reverse topological
order (spec section 4.4, missing from src/lib/tensor.js). If the node has a
backward function and a gradient, the backward function applied to its
accumulated gradient yields one contribution per parent, in parent order;
each contribution is accumulated into the corresponding parent when that
parent requires gradients (tensors with `requiresGrad = false` have no work
performed on them). -/
def processNode (h : List Tensor) (i : Nat) : List Tensor :=
  match h[i]? with
  | none => h
  | some t =>
    match t.backwardFn, t.grad with
    | some fn, some (gdata, _) =>
      (t.parents.zip (fn gdata)).foldl
        (fun hh pc =>
          match hh[pc.1]? with
          | some pt =>
            if pt.requiresGrad then
              hh.set pc.1 { pt with grad := accumulateGrad pt.grad pc.2 pt.shape }
            else hh
          | none => hh) h
    | _, _ => h

/-- Modelled from the spec: `backward()` invoked on the tensor at heap index
`root` (spec section 4.4, missing from src/lib/tensor.js). If the root's
gradient is absent it is seeded with a tensor of ones matching the root's
shape; an already present gradient is kept as the seed. The subgraph
reachable through `parents` is then processed in reverse finish order of the
depth-first traversal, so every node's dependents contribute to its gradient
before its own backward function fires. -/
def backward (h : List Tensor) (root : Nat) : List Tensor :=
  let h1 :=
    match h[root]? with
    | none => h
    | some r =>
      match r.grad with
      | none =>
        h.set root { r with grad := some (List.replicate (shapeProd r.shape) 1, r.shape) }
      | some _ => h
  ((topoVisit h1 (h1.length + 1) root []).reverse).foldl processNode h1

/-- The arrays occurring in a nested datum, with their depth: `ArrAt t d n`
holds when an array of length `n` occurs at nesting depth `d` inside `t`
(the datum itself sits at depth 0). -/
inductive ArrAt : NestedData → Nat → Nat → Prop where
  | here (xs : List NestedData) : ArrAt (.arr xs) 0 xs.length
  | child {x : NestedData} {xs : List NestedData} {d n : Nat} :
      x ∈ xs → ArrAt x d n → ArrAt (.arr xs) (d + 1) n

/-- A successful lookup in a list still succeeds after appending to it. -/
theorem getElem?_append_of_some {s u : List Nat} {i a : Nat}
    (h : s[i]? = some a) : (s ++ u)[i]? = some a := by
  have hi : i < s.length := (List.getElem?_eq_some.mp h).1
  rw [List.getElem?_append_left hi]
  exact h

mutual
/-- Soundness of `checkShape`: when it succeeds, the resulting shape extends
the incoming one and records, at entry `depth + k`, the length of every
array at depth `k` of the datum — so all arrays at one depth share one
length. -/
theorem checkShape_sound (t : NestedData) (depth : Nat) (s s' : List Nat)
    (hdep : depth ≤ s.length) (h : checkShape t depth s = some s') :
    (∃ u, s' = s ++ u) ∧ ∀ k n, ArrAt t k n → s'[depth + k]? = some n :=
  match t with
  | .num _ => by
    simp only [checkShape] at h
    refine ⟨⟨[], by rw [List.append_nil]; exact (Option.some.inj h).symm⟩, ?_⟩
    intro k n hk
    nomatch hk
  | .arr xs => by
    simp only [checkShape] at h
    split at h
    · rename_i hA
      have heq : depth = s.length := Nat.le_antisymm hdep hA
      obtain ⟨⟨u, hu⟩, hfacts⟩ :=
        checkShapeList_sound xs depth (s ++ [xs.length]) s'
          (by simp [heq]) h
      refine ⟨⟨xs.length :: u, by simpa using hu⟩, ?_⟩
      intro k n hk
      cases hk with
      | here =>
        rw [Nat.add_zero, hu, heq]
        exact getElem?_append_of_some (List.getElem?_concat_length s xs.length)
      | child hx hsub =>
        simpa [Nat.add_assoc, Nat.add_comm, Nat.add_left_comm] using
          hfacts _ hx _ _ hsub
    · rename_i hB1
      have hdep1 : depth + 1 ≤ s.length := Nat.lt_of_not_le hB1
      split at h
      · rename_i hB2
        obtain ⟨⟨u, hu⟩, hfacts⟩ := checkShapeList_sound xs depth s s' hdep1 h
        refine ⟨⟨u, hu⟩, ?_⟩
        intro k n hk
        cases hk with
        | here =>
          rw [Nat.add_zero, hu]
          exact getElem?_append_of_some hB2
        | child hx hsub =>
          simpa [Nat.add_assoc, Nat.add_comm, Nat.add_left_comm] using
            hfacts _ hx _ _ hsub
      · exact absurd h (by simp)

/-- Soundness of the child loop of `checkShape`, for every child of an array
sitting at depth `depth`. -/
theorem checkShapeList_sound (xs : List NestedData) (depth : Nat) (s s' : List Nat)
    (hdep : depth + 1 ≤ s.length) (h : checkShapeList xs depth s = some s') :
    (∃ u, s' = s ++ u) ∧
      ∀ x ∈ xs, ∀ k n, ArrAt x k n → s'[depth + 1 + k]? = some n :=
  match xs with
  | [] => by
    simp only [checkShapeList] at h
    refine ⟨⟨[], by rw [List.append_nil]; exact (Option.some.inj h).symm⟩, ?_⟩
    intro x hx
    exact absurd hx (List.not_mem_nil x)
  | x :: rest => by
    simp only [checkShapeList] at h
    cases hx1 : checkShape x (depth + 1) s with
    | none => rw [hx1] at h; exact absurd h (by simp)
    | some s1 =>
      rw [hx1] at h
      obtain ⟨⟨u1, hu1⟩, hfacts1⟩ := checkShape_sound x (depth + 1) s s1 hdep hx1
      have hdep2 : depth + 1 ≤ s1.length := by
        rw [hu1]
        simp only [List.length_append]
        omega
      obtain ⟨⟨u2, hu2⟩, hfacts2⟩ := checkShapeList_sound rest depth s1 s' hdep2 h
      refine ⟨⟨u1 ++ u2, by rw [hu2, hu1, List.append_assoc]⟩, ?_⟩
      intro y hy k n hk
      rcases List.mem_cons.mp hy with hEq | hmem
      · subst hEq
        rw [hu2]
        exact getElem?_append_of_some (hfacts1 k n hk)
      · exact hfacts2 y hmem k n hk
end

/-- Folding multiplication from a zero accumulator stays zero. -/
theorem foldl_mul_zero_acc (l : List Nat) : l.foldl (· * ·) 0 = 0 := by
  induction l with
  | nil => rfl
  | cons x rest ih => simpa using ih

/-- A shape containing a zero dimension has product zero, whatever the
accumulator. -/
theorem foldl_mul_of_zero_mem {l : List Nat} (h : 0 ∈ l) :
    ∀ a : Nat, l.foldl (· * ·) a = 0 := by
  induction h with
  | head as =>
    intro a
    rw [List.foldl_cons, Nat.mul_zero]
    exact foldl_mul_zero_acc as
  | tail b hm ih =>
    intro a
    rw [List.foldl_cons]
    exact ih _

/-- Adding a list of ones into a freshly allocated zero gradient gives the
ones back. -/
theorem zipWith_add_replicate_ones (n : Nat) :
    List.zipWith (· + ·) (List.replicate n (0 : Int)) (List.replicate n 1)
      = List.replicate n 1 := by
  induction n with
  | zero => rfl
  | succ k ih => simp [List.replicate_succ, ih]

/-- A row of wrapped numbers contains no array, so `formatTensorString`
takes its flat 1-D branch on it. -/
theorem any_isArr_map_num (l : List Int) :
    (l.map NestedData.num).any NestedData.isArr = false := by
  induction l with
  | nil => rfl
  | cons x rest ih => simp [NestedData.isArr, ih]

/-- Rendering a wrapped number renders the number. -/
theorem leafString_comp_num :
    leafString ∘ NestedData.num = fun v : Int => toString v :=
  funext fun _ => rfl

/-- Every element of a constant buffer compares equal to the constant. -/
theorem all_beq_replicate (n : Nat) (v : Int) :
    (List.replicate n v).all (· == v) = true := by
  induction n with
  | zero => rfl
  | succ k ih => simp [List.replicate_succ, ih]

/-- C1: the flatten/unflatten round trip claimed for every rank fails at rank
3. Flattening `[[[1,2],[3,4]],[[5,6],[7,8]]]` yields the row-major buffer
`[1..8]` with shape `[2,2,2]`, but unflattening that buffer under that shape
does not reproduce the input: `unflatten` computes the chunk size as
`data.length / shape[0]` from the FULL buffer at every recursion level
(src/lib/tensor.js:237), so below the top level the offsets are wrong. -/
theorem unflatten_flatten_roundtrip_cex :
    flattenAndGetShape
        (.arr [.arr [.arr [.num 1, .num 2], .arr [.num 3, .num 4]],
               .arr [.arr [.num 5, .num 6], .arr [.num 7, .num 8]]])
      = some ([1, 2, 3, 4, 5, 6, 7, 8], [2, 2, 2]) ∧
    unflatten [1, 2, 3, 4, 5, 6, 7, 8] [2, 2, 2] 0
      = .arr [.arr [.arr [.num 1, .num 2], .arr [.num 5, .num 6]],
              .arr [.arr [.num 5, .num 6], .arr []]] ∧
    flattenAndGetShape (unflatten [1, 2, 3, 4, 5, 6, 7, 8] [2, 2, 2] 0) = none :=
  ⟨rfl, rfl, rfl⟩

/-- C2: the constructor invariant `data.length == product(shape)` is broken
by an accepted input mixing a number and a sub-array at the same depth:
`new Tensor([1, [2, 3]])` passes `isValidTensor`, flattens to a 3-element
buffer, yet infers shape `[2, 2]` whose product is 4. -/
theorem make_mixed_invariant_cex :
    (Tensor.make (.arr [.num 1, .arr [.num 2, .num 3]])).map
        (fun t => (t.data.length, shapeProd t.shape,
          t.data.length == shapeProd t.shape))
      = .ok (3, 4, false) :=
  rfl

/-- C3: a nested array containing two arrays of unequal length at the same
depth is rejected by the constructor with a ShapeError, before any buffer is
allocated — the validity check at src/lib/tensor.js:8 runs first, and in the
model the error branch returns no tensor at all. -/
theorem make_inconsistent_shape_error (d : NestedData) (dep n1 n2 : Nat)
    (h1 : ArrAt d dep n1) (h2 : ArrAt d dep n2) (hne : n1 ≠ n2) :
    Tensor.make d = .error .ShapeError := by
  cases d with
  | num v => nomatch h1
  | arr xs =>
    have hcs : checkShape (.arr xs) 0 [] = none := by
      cases hcase : checkShape (.arr xs) 0 [] with
      | none => rfl
      | some s' =>
        obtain ⟨-, hfacts⟩ :=
          checkShape_sound (.arr xs) 0 [] s' (Nat.zero_le _) hcase
        have e1 := hfacts dep n1 h1
        have e2 := hfacts dep n2 h2
        rw [e1] at e2
        exact absurd (Option.some.inj e2) hne
    unfold Tensor.make
    simp [isValidTensor, hcs]

/-- Witness for C3 at the spec's example `[[1,2],[3]]`: depth 1 holds arrays
of lengths 2 and 1. -/
theorem make_inconsistent_shape_error_witness :
    Tensor.make (.arr [.arr [.num 1, .num 2], .arr [.num 3]])
      = .error .ShapeError :=
  make_inconsistent_shape_error _ 1 2 1
    (ArrAt.child (List.mem_cons_self _ _) (ArrAt.here _))
    (ArrAt.child (List.mem_cons_of_mem _ (List.mem_cons_self _ _)) (ArrAt.here _))
    (by decide)

/-- C4: on the two-node graph where `a` requires gradients and `b` was built
from `a` (`parents = [a]`) with a backward function returning the identity
gradient, `backward` invoked at `b` seeds `b.grad` with ones of `b`'s shape
and accumulates the identity contribution into `a.grad`, leaving it a tensor
of ones with `a`'s shape. The heap is `[a, b]`, `a` at index 0, `b` at
index 1. -/
theorem backward_identity_ones (s : List Nat) (adata bdata : List Int) :
    (backward
        [⟨adata, s, true, none, [], none⟩,
         ⟨bdata, s, true, none, [0], some (fun g => [g])⟩] 1)[0]?
      = some ⟨adata, s, true, some (List.replicate (shapeProd s) 1, s), [], none⟩ ∧
    (backward
        [⟨adata, s, true, none, [], none⟩,
         ⟨bdata, s, true, none, [0], some (fun g => [g])⟩] 1)[1]?
      = some ⟨bdata, s, true, some (List.replicate (shapeProd s) 1, s), [0],
              some (fun g => [g])⟩ := by
  have hres : backward
      [⟨adata, s, true, none, [], none⟩,
       ⟨bdata, s, true, none, [0], some (fun g => [g])⟩] 1
      = [⟨adata, s, true,
            some (List.zipWith (· + ·) (List.replicate (shapeProd s) 0)
              (List.replicate (shapeProd s) 1), s), [], none⟩,
         ⟨bdata, s, true, some (List.replicate (shapeProd s) 1, s), [0],
            some (fun g => [g])⟩] := rfl
  rw [hres, zipWith_add_replicate_ones]
  exact ⟨rfl, rfl⟩

/-- C5: `arange(start, end, step)` with a nonzero step yields a rank-1
tensor of `max(0, ceil((end - start) / step))` elements whose i-th element
is `start + i * step`; `arange(n)` yields `0, 1, ..., n - 1`; a zero step
yields a ValueError. -/
theorem arange_spec :
    (∀ s e st : Int, st ≠ 0 →
      ∃ t : Tensor, Tensor.arange s (some e) st = .ok t ∧
        t.shape = [(max 0 ⌈((e - s : ℚ) / (st : ℚ))⌉).toNat] ∧
        t.data.length = (max 0 ⌈((e - s : ℚ) / (st : ℚ))⌉).toNat ∧
        ∀ i : Nat, i < t.data.length → t.data[i]? = some (s + (i : Int) * st)) ∧
    (∀ n : Int, 0 ≤ n →
      ∃ t : Tensor, Tensor.arange n none 1 = .ok t ∧
        t.shape = [n.toNat] ∧
        t.data = (List.range n.toNat).map (fun i : Nat => (i : Int))) ∧
    (∀ s e : Int, Tensor.arange s (some e) 0 = .error .ValueError) := by
  refine ⟨?_, ?_, ?_⟩
  · intro s e st hst
    simp only [Tensor.arange]
    rw [if_neg hst]
    refine ⟨_, rfl, ?_, ?_, ?_⟩
    · simp only [Tensor.fromBuffer, List.length_map, List.length_range]
    · simp only [Tensor.fromBuffer, List.length_map, List.length_range]
    · intro i hi
      simp only [Tensor.fromBuffer, List.length_map, List.length_range] at hi
      simp only [Tensor.fromBuffer]
      rw [List.getElem?_map, List.getElem?_range hi]
      rfl
  · intro n hn
    simp only [Tensor.arange]
    rw [if_neg (one_ne_zero : (1 : Int) ≠ 0)]
    refine ⟨_, rfl, ?_, ?_⟩
    · simp only [Tensor.fromBuffer, List.length_map, List.length_range,
        List.cons.injEq, and_true]
      norm_num
      omega
    · simp only [Tensor.fromBuffer]
      have hsz : (max 0 ⌈(((n : ℚ) - ((0 : Int) : ℚ)) / ((1 : Int) : ℚ))⌉).toNat
          = n.toNat := by
        norm_num
        omega
      rw [hsz]
      refine List.map_congr_left ?_
      intro i _
      simp
  · intro s e
    rfl

/-- Witness for C5 at the spec's examples `arange(0, 10, 2)` and the
zero-step failure `arange(0, 5, 0)`. -/
theorem arange_spec_witness :
    (∃ t : Tensor, Tensor.arange 0 (some 10) 2 = .ok t ∧
      t.shape = [(max 0 ⌈((((10 : Int) : ℚ) - ((0 : Int) : ℚ)) / (((2 : Int)) : ℚ))⌉).toNat] ∧
      t.data.length
        = (max 0 ⌈((((10 : Int) : ℚ) - ((0 : Int) : ℚ)) / (((2 : Int)) : ℚ))⌉).toNat ∧
      ∀ i : Nat, i < t.data.length → t.data[i]? = some ((0 : Int) + (i : Int) * 2)) ∧
    Tensor.arange 0 (some 5) 0 = .error .ValueError :=
  ⟨arange_spec.1 0 10 2 (by decide), arange_spec.2.2 0 5⟩

/-- C6: for every shape `s`, each of `zeros`, `ones` and `full` allocates a
buffer of exactly `product(s)` elements, every one of which equals 0, 1 and
the fill value respectively. -/
theorem zeros_ones_full_spec :
    ∀ (s : List Nat) (v : Int),
      (Tensor.zeros s).data.length = shapeProd s ∧
      (Tensor.zeros s).data.all (· == 0) = true ∧
      (Tensor.ones s).data.length = shapeProd s ∧
      (Tensor.ones s).data.all (· == 1) = true ∧
      (Tensor.full s v).data.length = shapeProd s ∧
      (Tensor.full s v).data.all (· == v) = true := by
  intro s v
  have hz : (Tensor.zeros s).data = List.replicate (shapeProd s) (0 : Int) := rfl
  have ho : (Tensor.ones s).data = List.replicate (shapeProd s) (1 : Int) := by
    have h1 : (Tensor.ones s).data
        = List.replicate (List.replicate (shapeProd s) (0 : Int)).length 1 := rfl
    rw [h1, List.length_replicate]
  have hf : (Tensor.full s v).data = List.replicate (shapeProd s) v := by
    have h1 : (Tensor.full s v).data
        = List.replicate (List.replicate (shapeProd s) (0 : Int)).length v := rfl
    rw [h1, List.length_replicate]
  refine ⟨?_, ?_, ?_, ?_, ?_, ?_⟩
  · rw [hz, List.length_replicate]
  · rw [hz]; exact all_beq_replicate _ _
  · rw [ho, List.length_replicate]
  · rw [ho]; exact all_beq_replicate _ _
  · rw [hf, List.length_replicate]
  · rw [hf]; exact all_beq_replicate _ _

/-- C7: the 2x3 example renders to the exact claimed string, and every
rank-1 tensor renders as the flat bracketed comma-joined list of its buffer.
The embedding of `toString` is a pure function of the tensor, so it cannot
mutate it. -/
theorem toString_matrix_and_rank1 :
    (Tensor.make (.arr [.arr [.num 1, .num 2, .num 3],
        .arr [.num 4, .num 5, .num 6]])).map Tensor.toString
      = .ok "tensor([\n  [1, 2, 3],\n  [4, 5, 6]\n], dtype=float32)" ∧
    ∀ t : Tensor, t.shape.length = 1 →
      Tensor.toString t
        = "tensor(" ++ ("[" ++ String.intercalate ", "
            (t.data.map (fun v => toString v)) ++ "]") ++ ", dtype=float32)" := by
  constructor
  · rfl
  · intro t ht
    have hfmt : formatTensorString (.arr (t.data.map .num)) 0
        = "[" ++ String.intercalate ", " (t.data.map (fun v => toString v)) ++ "]" := by
      simp [formatTensorString, any_isArr_map_num, List.map_map, leafString_comp_num]
    simp [Tensor.toString, ht, hfmt]

/-- Witness for C7's rank-1 clause at the buffer `[7, 8]`. -/
theorem toString_matrix_and_rank1_witness :
    Tensor.toString (Tensor.fromBuffer [7, 8])
      = "tensor(" ++ ("[" ++ String.intercalate ", "
          ((Tensor.fromBuffer [7, 8]).data.map (fun v => toString v)) ++ "]")
        ++ ", dtype=float32)" :=
  toString_matrix_and_rank1.2 (Tensor.fromBuffer [7, 8]) rfl

/-- C8: on a tensor with a gradient, `zeroGrad` zeroes every slot of the
gradient buffer, keeping its length and shape and leaving the tensor's own
data, shape and autograd bookkeeping untouched; on a tensor without a
gradient it is the identity. -/
theorem zeroGrad_spec :
    ∀ t : Tensor,
      (∀ gd gs, t.grad = some (gd, gs) →
        (Tensor.zeroGrad t).grad = some (List.replicate gd.length 0, gs) ∧
        (List.replicate gd.length (0 : Int)).length = gd.length ∧
        (List.replicate gd.length (0 : Int)).all (· == 0) = true ∧
        (Tensor.zeroGrad t).data = t.data ∧
        (Tensor.zeroGrad t).shape = t.shape ∧
        (Tensor.zeroGrad t).requiresGrad = t.requiresGrad ∧
        (Tensor.zeroGrad t).parents = t.parents ∧
        (Tensor.zeroGrad t).backwardFn = t.backwardFn) ∧
      (t.grad = none → Tensor.zeroGrad t = t) := by
  intro t
  constructor
  · intro gd gs hg
    have hz : Tensor.zeroGrad t = { t with grad := some (List.replicate gd.length 0, gs) } := by
      unfold Tensor.zeroGrad
      rw [hg]
    have hall : (List.replicate gd.length (0 : Int)).all (· == 0) = true := by
      refine List.all_eq_true.mpr ?_
      intro x hx
      rw [List.eq_of_mem_replicate hx]
      exact beq_self_eq_true 0
    rw [hz]
    exact ⟨rfl, List.length_replicate _ _, hall, rfl, rfl, rfl, rfl, rfl⟩
  · intro hg
    unfold Tensor.zeroGrad
    rw [hg]

/-- Witness for C8 at a tensor whose gradient buffer is `[1, 2, 3]`, as in
the spec's example. -/
theorem zeroGrad_spec_witness :
    (Tensor.zeroGrad ⟨[9], [1], false, some ([1, 2, 3], [3]), [], none⟩).grad
      = some ([0, 0, 0], [3]) ∧
    (Tensor.zeroGrad ⟨[9], [1], false, some ([1, 2, 3], [3]), [], none⟩).data
      = [9] := by
  have h := (zeroGrad_spec ⟨[9], [1], false, some ([1, 2, 3], [3]), [], none⟩).1
    [1, 2, 3] [3] rfl
  exact ⟨h.1, h.2.2.2.1⟩

/-- C9: a zero dimension collapses the buffer to length 0, and `unflatten`
and `toString` still run to completion (the embedding is total) with the
values computed here for the shapes `[0,3]` and `[3,0]`. -/
theorem zero_dim_spec :
    (∀ s : List Nat, 0 ∈ s → (Tensor.zeros s).data.length = 0) ∧
    Tensor.toString (Tensor.zeros [0, 3]) = "tensor([], dtype=float32)" ∧
    Tensor.toString (Tensor.zeros [3, 0])
      = "tensor([\n  [],\n  [],\n  []\n], dtype=float32)" ∧
    unflatten [] [0, 3] 0 = .arr [] ∧
    unflatten [] [3, 0] 0 = .arr [.arr [], .arr [], .arr []] := by
  refine ⟨?_, rfl, rfl, rfl, rfl⟩
  intro s hs
  simp [Tensor.zeros, Tensor.ofShape, shapeProd, foldl_mul_of_zero_mem hs]

/-- Witness for C9's zero-dimension clause at the shape `[0, 3]`. -/
theorem zero_dim_spec_witness :
    (Tensor.zeros [0, 3]).data.length = 0 :=
  zero_dim_spec.1 [0, 3] (List.mem_cons_self _ _)

/-- C10, counterexample: `clone` does not copy the data of EVERY tensor the
constructor can produce. The accepted mixed input `[1, [2, 3]]` (see C2)
yields a tensor with 3 data elements but shape `[2, 2]`; cloning it
allocates a product-size buffer of 4 slots, so the clone's data is
`[1, 2, 3, 0]`, not element-wise equal to `[1, 2, 3]`. -/
theorem clone_claim_cex :
    (Tensor.make (.arr [.num 1, .arr [.num 2, .num 3]])).map
        (fun t => (Tensor.clone t).map (fun c => (c.data, t.data, c.data == t.data)))
      = .ok (.ok ([1, 2, 3, 0], [1, 2, 3], false)) :=
  rfl

/-- C10, amended: for every tensor satisfying the intended invariant
`data.length = product(shape)`, `clone` returns a fresh tensor with the same
shape and element-wise equal data, and with `requiresGrad = false`, no
gradient, no parents and no backward function regardless of the original's
autograd state. -/
theorem clone_spec (t : Tensor) (h : t.data.length = shapeProd t.shape) :
    Tensor.clone t = .ok ⟨t.data, t.shape, false, none, [], none⟩ := by
  have hle : t.data.length ≤ shapeProd t.shape := h.le
  have hd : (List.replicate (shapeProd t.shape) (0 : Int)).drop t.data.length = [] :=
    List.drop_eq_nil_of_le (by simp [h])
  simp [Tensor.clone, Tensor.ofShape, hle, hd]

/-- Witness for C10's amended claim at a well-formed 2x2 tensor. -/
theorem clone_spec_witness :
    Tensor.clone ⟨[1, 2, 3, 4], [2, 2], false, none, [], none⟩
      = .ok ⟨[1, 2, 3, 4], [2, 2], false, none, [], none⟩ :=
  clone_spec ⟨[1, 2, 3, 4], [2, 2], false, none, [], none⟩ rfl

end MiniWebGPT
